import Mathlib

/-!
Verification development for the happyclaw repository.

This file shallowly embeds the parts of the code base needed to settle the
frozen claims: the slash-command reset coordinator (`src/commands.ts`), the
image MIME detector and attachment normalizer (`shared/image-detector.ts`,
`src/message-attachments.ts`), the short-message intent analyzer
(`src/intent-analyzer.ts`), the daily-summary throttle
(`src/daily-summary.ts`), and the Group Execution Queue state machine, the
last of which is modelled from the specification because its source is not
part of the provided tree.

External effects (the sandbox queue's `stopGroup`, `fs.rmSync`, the database
insert) are modelled by boolean oracles packaged in an `Env` value, and the
world visible to `commands.ts` (database tables, the `.claude` directory,
the in-memory session cache, chat message histories) is an explicit `St`
state record.  Emitted side effects are recorded in an event trace so that
ordering claims can be stated.
-/

/-- A stored chat message, mirroring the columns passed to
`storeMessageDirect` in `src/commands.ts`. -/
structure Msg where
  id : String
  chat_jid : String
  sender : String
  sender_name : String
  content : String
  timestamp : String
  is_from_me : Bool
deriving DecidableEq, Repr

/-- The world state visible to `executeSessionReset`:
`dbJidsByFolder` is the table behind `getJidsByFolder`; `claudeDirs` maps a
folder to the entry list of its `.claude` directory (absent key = directory
does not exist); `dbSessions` is the set of folders with a persisted session
record; `memSessions` is the in-memory `deps.sessions` cache; `chats` is the
set of existing chats (`ensureChatExists`); `messages` is the message store;
`running` is the set of jids with a live sandbox (owned by the queue). -/
structure St where
  dbJidsByFolder : List (String × List String)
  claudeDirs : List (String × List String)
  dbSessions : List String
  memSessions : List (String × String)
  chats : List String
  messages : List Msg
  running : List String
deriving DecidableEq, Repr

/-- Oracles for the fallible external calls made by `executeSessionReset`:
`stopOk j` says whether a forced `deps.queue.stopGroup(j, {force:true})` on a
running sandbox resolves; `rmOk folder entry` whether `fs.rmSync` succeeds on
that entry; `storeOk` whether the `storeMessageDirect` insert succeeds;
`newId` and `now` are the values of `crypto.randomUUID()` and
`new Date().toISOString()`. -/
structure Env where
  stopOk : String → Bool
  rmOk : String → String → Bool
  storeOk : Bool
  newId : String
  now : String

/-- The ways `executeSessionReset` can reject. -/
inductive ResetErr where
  | stopFailed
  | storeFailed
deriving DecidableEq, Repr

/-- Side effects emitted during a reset, in emission order. -/
inductive Ev where
  | stop (jid : String)
  | clearFiles (folder : String)
  | deleteSession (folder : String)
  | store (m : Msg)
  | broadcast (m : Msg)
deriving DecidableEq, Repr

/-- First binding of key `k` in an association list. -/
def assocLookup {α : Type} (l : List (String × α)) (k : String) : Option α :=
  match l with
  | [] => none
  | p :: t => if p.1 == k then some p.2 else assocLookup t k

/-- `getJidsByFolder` from `src/db.ts` as seen by `commands.ts`: the jids of
all registered groups sharing `folder`. -/
def getJidsByFolder (s : St) (folder : String) : List String :=
  match assocLookup s.dbJidsByFolder folder with
  | some jids => jids
  | none => []

/-- Entry list of `data/sessions/<folder>/.claude`, `none` when the directory
does not exist (the `fs.existsSync` guard in `clearSessionFiles`). -/
def lookupDir (s : St) (folder : String) : Option (List String) :=
  assocLookup s.claudeDirs folder

/-- `clearSessionFiles` from `src/commands.ts`: remove every entry of the
folder's `.claude` directory except the `keep` allowlist `{settings.json}`;
an entry whose `fs.rmSync` fails (oracle `rmOk` false) is logged and kept;
a missing directory is a no-op.  The function is total: no failure
propagates to the caller. -/
def clearSessionFiles (env : Env) (folder : String) (s : St) : St :=
  match lookupDir s folder with
  | none => s
  | some entries =>
    let kept := entries.filter (fun e => e == "settings.json" || !env.rmOk folder e)
    { s with claudeDirs := s.claudeDirs.map (fun p => if p.1 == folder then (p.1, kept) else p) }

/-- Step 1 of `executeSessionReset`, state effect: `Promise.all` starts a
forced `stopGroup` on every sibling, so every successful stop takes effect
on `running` regardless of whether some other sibling's stop rejects. -/
def resetStopSiblings (env : Env) (folder : String) (s : St) : St :=
  let siblingJids := getJidsByFolder s folder
  { s with running := s.running.filter (fun j => !(siblingJids.contains j && env.stopOk j)) }

/-- Step 1 of `executeSessionReset`, control effect: the awaited
`Promise.all` rejects exactly when some sibling's forced `stopGroup`
rejects, i.e. when a sibling is running and its stop oracle is false. -/
def resetStopFailed (env : Env) (folder : String) (s : St) : Bool :=
  (getJidsByFolder s folder).any (fun j => s.running.contains j && !env.stopOk j)

/-- Step 3 of `executeSessionReset`: `deleteSession(folder)` in the
database plus `delete deps.sessions[folder]` in the in-memory cache. -/
def resetDeleteSession (folder : String) (s : St) : St :=
  { s with
    dbSessions := s.dbSessions.filter (fun g => g != folder)
    memSessions := s.memSessions.filter (fun p => p.1 != folder) }

/-- `ensureChatExists(chatJid)` before the divider insert. -/
def resetEnsureChat (chatJid : String) (s : St) : St :=
  { s with chats := if s.chats.contains chatJid then s.chats else s.chats ++ [chatJid] }

/-- The divider message built in step 4 of `executeSessionReset` and both
stored and broadcast; its content is the literal `'context_reset'`. -/
def resetMarkerMsg (env : Env) (chatJid : String) : Msg :=
  { id := env.newId, chat_jid := chatJid, sender := "__system__", sender_name := "system"
    content := "context_reset", timestamp := env.now, is_from_me := true }

/-- The state `executeSessionReset` leaves behind when it resolves: steps
1-4 applied in source order, ending with the stored divider message. -/
def resetSuccessState (env : Env) (chatJid folder : String) (s : St) : St :=
  let s4 := resetEnsureChat chatJid
    (resetDeleteSession folder (clearSessionFiles env folder (resetStopSiblings env folder s)))
  { s4 with messages := s4.messages ++ [resetMarkerMsg env chatJid] }

/-- `executeSessionReset` from `src/commands.ts`.  Step 1 awaits
`Promise.all` over forced `stopGroup` calls on every sibling: every call is
started (so every successful stop takes effect on `running`), but one
rejection makes the whole `await` throw, aborting the reset before cleanup.
Step 2 clears session files, step 3 deletes the persisted session record and
the in-memory cache entry, step 4 inserts and broadcasts the
`context_reset` divider message (rejecting if the insert fails). -/
def executeSessionReset (env : Env) (chatJid folder : String) (s : St) :
    Except ResetErr St × List Ev :=
  let siblingJids := getJidsByFolder s folder
  let stopEvs := siblingJids.map Ev.stop
  if resetStopFailed env folder s then
    (Except.error ResetErr.stopFailed, stopEvs)
  else if env.storeOk then
    (Except.ok (resetSuccessState env chatJid folder s),
     stopEvs ++
       [Ev.clearFiles folder, Ev.deleteSession folder,
        Ev.store (resetMarkerMsg env chatJid), Ev.broadcast (resetMarkerMsg env chatJid)])
  else
    (Except.error ResetErr.storeFailed,
     stopEvs ++ [Ev.clearFiles folder, Ev.deleteSession folder])

/-- Whether a reset result resolved (did not reject). -/
def resetResultOk (r : Except ResetErr St × List Ev) : Bool :=
  match r.1 with
  | Except.ok _ => true
  | Except.error _ => false

/-- The error a reset rejected with, if any. -/
def resetErrOf (r : Except ResetErr St × List Ev) : Option ResetErr :=
  match r.1 with
  | Except.ok _ => none
  | Except.error e => some e

/-- The message store of a resolved reset (empty list for a rejected one). -/
def resetResultMessages (r : Except ResetErr St × List Ev) : List Msg :=
  match r.1 with
  | Except.ok s => s.messages
  | Except.error _ => []

/-- Phase number of a reset side effect; `executeSessionReset` is required
to emit effects in non-decreasing phase order. -/
def evPhase : Ev → Nat
  | Ev.stop _ => 0
  | Ev.clearFiles _ => 1
  | Ev.deleteSession _ => 2
  | Ev.store _ => 3
  | Ev.broadcast _ => 4

/-- Whether an event is the client broadcast of a message. -/
def evIsBroadcast : Ev → Bool
  | Ev.broadcast _ => true
  | _ => false

/-- The end state the reset protocol is meant to establish for
`(chatJid, folder)`: no persisted session record, no in-memory cache entry,
no session artifact other than `settings.json`, and at least one
`context_reset` divider recorded in the originating chat. -/
def ResetEndState (chatJid folder : String) (s : St) : Prop :=
  folder ∉ s.dbSessions ∧
  (∀ v, (folder, v) ∉ s.memSessions) ∧
  (∀ l, lookupDir s folder = some l → ∀ e ∈ l, e = "settings.json") ∧
  1 ≤ (s.messages.filter (fun m => m.chat_jid == chatJid && m.content == "context_reset")).length

/-!
Group Execution Queue.  Modelled from the spec: the queue component
(`group-queue.ts`) is not part of the provided source tree — only its
callers and type declarations are — so the per-group state machine of
spec sections 3, 4.1 and 5 is embedded here directly from the spec's words:
states IDLE/QUEUED/RUNNING/STOPPING, a coalesced `pendingCount`, an
`ownerHandle` present only while RUNNING or STOPPING, a dispatch step that
acquires a fresh sandbox handle only after checking that no handle is
already owned for the key, and stop/complete/crash steps that release it.
Live sandbox handles are tracked as an explicit `(key, handle)` list so
that "at most one live handle per key" is a real property of the model
rather than a consequence of the field's type.
-/

/-- Per-group state of the queue state machine (spec section 4.1). -/
inductive QState where
  | idle
  | queued
  | running
  | stopping
deriving DecidableEq, Repr

/-- One queue entry (spec section 3): state, coalesced pending count, and
the opaque sandbox handle owned while RUNNING or STOPPING. -/
structure QueueEntry where
  state : QState
  pendingCount : Nat
  ownerHandle : Option Nat
deriving DecidableEq, Repr

/-- The entry a group has before its first `enqueue`/`ensureStarted`. -/
def initEntry : QueueEntry :=
  { state := QState.idle, pendingCount := 0, ownerHandle := none }

/-- Whole-queue state: the per-group entry map (later bindings shadow
earlier ones), the list of live sandbox handles as `(key, handle)` pairs,
and a counter supplying fresh handle identifiers. -/
structure GroupQueue where
  entries : List (String × QueueEntry)
  liveHandles : List (String × Nat)
  nextHandle : Nat
deriving DecidableEq, Repr

/-- The queue at process start: every group IDLE, no live sandbox. -/
def initQueue : GroupQueue :=
  { entries := [], liveHandles := [], nextHandle := 0 }

/-- Entry of group `k`, defaulting to the IDLE entry for an absent key. -/
def getEntry (q : GroupQueue) (k : String) : QueueEntry :=
  match assocLookup q.entries k with
  | some e => e
  | none => initEntry

/-- Overwrite the entry of group `k`. -/
def setEntry (q : GroupQueue) (k : String) (e : QueueEntry) : GroupQueue :=
  { q with entries := (k, e) :: q.entries }

/-- True when no live sandbox handle is owned for key `k` — the check the
spec requires before any transition into RUNNING. -/
def noLiveHandle (q : GroupQueue) (k : String) : Bool :=
  q.liveHandles.all (fun p => p.1 != k)

/-- Number of live sandbox handles currently owned for key `k`. -/
def countLive (q : GroupQueue) (k : String) : Nat :=
  (q.liveHandles.filter (fun p => p.1 == k)).length

/-- Labels of the queue transitions of spec section 4.1. -/
inductive QLabel where
  | enqueue (k : String)
  | ensureStarted (k : String)
  | dispatch (k : String)
  | dispatchFail (k : String)
  | complete (k : String)
  | stopGraceful (k : String)
  | gracefulExit (k : String)
  | stopTimeout (k : String)
  | stopForce (k : String)
  | crash (k : String)

/-- One transition of the queue state machine; `none` when the label's
guard does not hold in `q`.  `dispatch` is the only step that enters
RUNNING: it requires the entry to be QUEUED and `noLiveHandle` to hold,
then acquires a fresh handle.  `complete`, `gracefulExit`, `stopTimeout`,
`stopForce` and `crash` release the owned handle.  `stopForce` on an IDLE
group, and `enqueue`/`ensureStarted` coalescing, are no-op successes. -/
def qstep : QLabel → GroupQueue → Option GroupQueue
  | QLabel.enqueue k, q =>
    let e := getEntry q k
    match e.state with
    | QState.idle =>
      some (setEntry q k { e with state := QState.queued, pendingCount := e.pendingCount + 1 })
    | _ => some (setEntry q k { e with pendingCount := e.pendingCount + 1 })
  | QLabel.ensureStarted k, q =>
    let e := getEntry q k
    match e.state with
    | QState.idle => some (setEntry q k { e with state := QState.queued })
    | _ => some q
  | QLabel.dispatch k, q =>
    let e := getEntry q k
    if e.state == QState.queued && noLiveHandle q k then
      some { setEntry q k
               { state := QState.running, pendingCount := 0, ownerHandle := some q.nextHandle } with
             liveHandles := (k, q.nextHandle) :: q.liveHandles
             nextHandle := q.nextHandle + 1 }
    else none
  | QLabel.dispatchFail k, q =>
    let e := getEntry q k
    match e.state with
    | QState.queued => some (setEntry q k { e with state := QState.idle })
    | _ => none
  | QLabel.complete k, q =>
    let e := getEntry q k
    match e.state, e.ownerHandle with
    | QState.running, some h =>
      some { setEntry q k
               { state := if e.pendingCount > 0 then QState.queued else QState.idle
                 pendingCount := e.pendingCount, ownerHandle := none } with
             liveHandles := q.liveHandles.erase (k, h) }
    | _, _ => none
  | QLabel.stopGraceful k, q =>
    let e := getEntry q k
    match e.state with
    | QState.running => some (setEntry q k { e with state := QState.stopping })
    | _ => none
  | QLabel.gracefulExit k, q =>
    let e := getEntry q k
    match e.state, e.ownerHandle with
    | QState.stopping, some h =>
      some { setEntry q k { e with state := QState.idle, ownerHandle := none } with
             liveHandles := q.liveHandles.erase (k, h) }
    | _, _ => none
  | QLabel.stopTimeout k, q =>
    let e := getEntry q k
    match e.state, e.ownerHandle with
    | QState.stopping, some h =>
      some { setEntry q k { e with state := QState.idle, ownerHandle := none } with
             liveHandles := q.liveHandles.erase (k, h) }
    | _, _ => none
  | QLabel.stopForce k, q =>
    let e := getEntry q k
    match e.state, e.ownerHandle with
    | QState.running, some h =>
      some { setEntry q k { e with state := QState.idle, ownerHandle := none } with
             liveHandles := q.liveHandles.erase (k, h) }
    | QState.stopping, some h =>
      some { setEntry q k { e with state := QState.idle, ownerHandle := none } with
             liveHandles := q.liveHandles.erase (k, h) }
    | QState.queued, _ => some (setEntry q k { e with state := QState.idle })
    | QState.idle, _ => some q
    | _, _ => none
  | QLabel.crash k, q =>
    let e := getEntry q k
    match e.state, e.ownerHandle with
    | QState.running, some h =>
      some { setEntry q k { e with state := QState.idle, ownerHandle := none } with
             liveHandles := q.liveHandles.erase (k, h) }
    | QState.stopping, some h =>
      some { setEntry q k { e with state := QState.idle, ownerHandle := none } with
             liveHandles := q.liveHandles.erase (k, h) }
    | _, _ => none

/-- Run a list of transitions from `q`; `none` if any guard fails. -/
def qrun : List QLabel → GroupQueue → Option GroupQueue
  | [], q => some q
  | l :: ls, q =>
    match qstep l q with
    | some q' => qrun ls q'
    | none => none

/-- A queue state reachable from process start. -/
def QReachable (q : GroupQueue) : Prop :=
  ∃ ls, qrun ls initQueue = some q

/-- The queue state reached by `enqueue g; dispatch g` from start: group
`g` RUNNING and owning the single live handle `0`. -/
def qDemo : GroupQueue :=
  { entries := [("g", { state := QState.running, pendingCount := 0, ownerHandle := some 0 }),
                ("g", { state := QState.queued, pendingCount := 1, ownerHandle := none })]
    liveHandles := [("g", 0)]
    nextHandle := 1 }

/-!
Image MIME detection (`shared/image-detector.ts`, synced into
`src/image-detector.ts` and the web hook copy) and attachment
normalization (`src/message-attachments.ts`).  Buffers are byte lists;
`Buffer.prototype.toString('ascii', from, to)` masks each byte to 7 bits,
which `asciiSlice` reproduces.  Node's base64 decoder (`Buffer.from(s,
'base64')`) is an external library routine and is abstracted as a function
argument where it is consumed.
-/

/-- Byte `i` of a buffer (`buffer[i]` in the source; every access in
`detectImageMimeTypeStrict` is guarded by the length check). -/
def byteAt (buffer : List Nat) (i : Nat) : Nat :=
  buffer.getD i 0

/-- `buffer.toString('ascii', start, stop)`: bytes `start..stop-1`, each
masked to 7 bits as Node's ascii decoder does. -/
def asciiSlice (buffer : List Nat) (start stop : Nat) : String :=
  String.mk (((buffer.drop start).take (stop - start)).map (fun n => Char.ofNat (n % 128)))

/-- `detectImageMimeTypeStrict` from `shared/image-detector.ts`: magic-byte
sniffing over the first bytes, refusing any buffer shorter than 12 bytes
up front, then testing PNG, JPEG, GIF, WebP, TIFF, AVIF and BMP
signatures in source order. -/
def detectImageMimeTypeStrict (buffer : List Nat) : Option String :=
  if buffer.length < 12 then
    none
  else if byteAt buffer 0 == 0x89 && byteAt buffer 1 == 0x50 &&
          byteAt buffer 2 == 0x4e && byteAt buffer 3 == 0x47 &&
          byteAt buffer 4 == 0x0d && byteAt buffer 5 == 0x0a &&
          byteAt buffer 6 == 0x1a && byteAt buffer 7 == 0x0a then
    some "image/png"
  else if byteAt buffer 0 == 0xff && byteAt buffer 1 == 0xd8 && byteAt buffer 2 == 0xff then
    some "image/jpeg"
  else if byteAt buffer 0 == 0x47 && byteAt buffer 1 == 0x49 &&
          byteAt buffer 2 == 0x46 && byteAt buffer 3 == 0x38 then
    some "image/gif"
  else if byteAt buffer 0 == 0x52 && byteAt buffer 1 == 0x49 &&
          byteAt buffer 2 == 0x46 && byteAt buffer 3 == 0x46 &&
          decide (12 ≤ buffer.length) &&
          byteAt buffer 8 == 0x57 && byteAt buffer 9 == 0x45 &&
          byteAt buffer 10 == 0x42 && byteAt buffer 11 == 0x50 then
    some "image/webp"
  else if (byteAt buffer 0 == 0x49 && byteAt buffer 1 == 0x49 &&
           byteAt buffer 2 == 0x2a && byteAt buffer 3 == 0x00) ||
          (byteAt buffer 0 == 0x4d && byteAt buffer 1 == 0x4d &&
           byteAt buffer 2 == 0x00 && byteAt buffer 3 == 0x2a) then
    some "image/tiff"
  else if decide (12 ≤ buffer.length) && asciiSlice buffer 4 8 == "ftyp" &&
          (asciiSlice buffer 8 12 == "avif" || asciiSlice buffer 8 12 == "avis") then
    some "image/avif"
  else if byteAt buffer 0 == 0x42 && byteAt buffer 1 == 0x4d then
    some "image/bmp"
  else
    none

/-- The seven MIME strings `detectImageMimeTypeStrict` can produce. -/
def knownImageMimes : List String :=
  ["image/png", "image/jpeg", "image/gif", "image/webp", "image/tiff",
   "image/avif", "image/bmp"]

/-- A JavaScript value as far as the attachment normalizer inspects one:
`undef` covers absent/undefined (and null, which `??` treats alike),
`str` a string, `other` any non-string value. -/
inductive JsVal where
  | undef
  | str (s : String)
  | other
deriving DecidableEq, Repr

/-- `ImageAttachmentInput` from `src/message-attachments.ts`: the three
untyped fields the normalizer reads. -/
structure ImageAttachmentInput where
  type : JsVal
  data : JsVal
  mimeType : JsVal
deriving DecidableEq, Repr

/-- `NormalizedImageAttachment` (the `type: 'image'` literal field is
constant and omitted). -/
structure NormalizedImageAttachment where
  data : String
  mimeType : String
deriving DecidableEq, Repr

/-- `raw.replace(/\s+/g, '')`: drop every whitespace character. -/
def stripWs (s : String) : String :=
  String.mk (s.toList.filter (fun c => !c.isWhitespace))

/-- Lowercase a character list (ASCII case fold, matching the `/i` regex
flag on the ASCII literals it is compared against). -/
def lowerChars (cs : List Char) : List Char :=
  cs.map Char.toLower

/-- `needle` is an initial segment of `hay` (character lists). -/
def listStarts : List Char → List Char → Bool
  | _, [] => true
  | [], _ :: _ => false
  | a :: hs, b :: ns => a == b && listStarts hs ns

/-- `String.prototype.trim()`: drop whitespace from both ends.  (Defined
over the character list so that it evaluates inside the kernel.) -/
def jsTrim (s : String) : String :=
  String.mk (((s.toList.dropWhile Char.isWhitespace).reverse.dropWhile
    Char.isWhitespace).reverse)

/-- `String.prototype.toLowerCase()` restricted to the ASCII fold, which
is exact on every keyword and MIME literal it is compared against here. -/
def jsToLower (s : String) : String :=
  String.mk (s.toList.map Char.toLower)

/-- `String.prototype.startsWith(needle)`. -/
def jsStartsWith (s needle : String) : Bool :=
  listStarts s.toList needle.toList

/-- `normalizeImageMimeType` from `src/message-attachments.ts`: a string
is trimmed and lowercased and kept only when it starts with `image/`;
any non-string is rejected. -/
def normalizeImageMimeType (raw : JsVal) : Option String :=
  match raw with
  | JsVal.str s =>
    let lowered := jsToLower (jsTrim s)
    if jsStartsWith lowered "image/" then some lowered else none
  | _ => none

/-- The match of `/^\s*data:([^;,]+);base64,(.*)\s*$/is` on `raw`:
optional leading whitespace, a case-insensitive `data:` scheme, a
non-empty run of characters other than `;` and `,` (the captured MIME),
then a case-insensitive `;base64,`, then the rest of the string (the
captured payload, trailing whitespace included — the greedy `(.*)`
under `/s` absorbs it). -/
def dataUrlMatch (raw : String) : Option (String × String) :=
  let rest := raw.toList.dropWhile Char.isWhitespace
  if lowerChars (rest.take 5) == "data:".toList then
    let afterScheme := rest.drop 5
    let mime := afterScheme.takeWhile (fun c => c != ';' && c != ',')
    let tail := afterScheme.dropWhile (fun c => c != ';' && c != ',')
    if decide (0 < mime.length) && lowerChars (tail.take 8) == ";base64,".toList then
      some (String.mk mime, String.mk (tail.drop 8))
    else none
  else none

/-- `unwrapBase64Payload` from `src/message-attachments.ts`: strip a
`data:` URL wrapper when present (hinting its declared MIME), and strip
all whitespace from the base64 payload. -/
def unwrapBase64Payload (raw : String) : String × Option String :=
  match dataUrlMatch raw with
  | none => (stripWs raw, none)
  | some (m, b) => (stripWs b, normalizeImageMimeType (JsVal.str m))

/-- `resolveImageMimeType` from `src/message-attachments.ts`; the second
component records the `onMimeMismatch` callback invocation, if any. -/
def resolveImageMimeType (declaredMime detectedMime : Option String) :
    String × Option (String × String) :=
  match declaredMime, detectedMime with
  | some dec, some det =>
    if dec != det then (det, some (dec, det)) else (dec, none)
  | some dec, none => (dec, none)
  | none, some det => (det, none)
  | none, none => ("image/jpeg", none)

/-- `normalizeImageAttachment` from `src/message-attachments.ts`, with the
composed `detectImageMimeTypeFromBase64Strict` call abstracted as
`detect` (the source wires in the base64 decode of the first 400
characters followed by `detectImageMimeTypeStrict`).  Returns the
normalized attachment (or `none` for a rejected input) and the recorded
`onMimeMismatch` invocation, if any. -/
def normalizeImageAttachment (detect : String → Option String)
    (input : ImageAttachmentInput) :
    Option NormalizedImageAttachment × Option (String × String) :=
  let coalescedType : JsVal :=
    match input.type with
    | JsVal.undef => JsVal.str "image"
    | v => v
  if coalescedType != JsVal.str "image" then (none, none)
  else
    match input.data with
    | JsVal.str d =>
      if d.length == 0 then (none, none)
      else
        let u := unwrapBase64Payload d
        if u.1.length == 0 then (none, none)
        else
          let declared := (normalizeImageMimeType input.mimeType).orElse (fun _ => u.2)
          let detected := detect u.1
          let r := resolveImageMimeType declared detected
          (some { data := u.1, mimeType := r.1 }, r.2)
    | _ => (none, none)

/-- `detectImageMimeTypeFromBase64Strict` from `shared/image-detector.ts`
with Node's `Buffer.from(·, 'base64')` abstracted as `b64decode`: decode
the first 400 characters and sniff the resulting header bytes. -/
def detectImageMimeTypeFromBase64Strict (b64decode : String → List Nat)
    (base64Data : String) : Option String :=
  detectImageMimeTypeStrict (b64decode (base64Data.take 400))

/-!
Intent analyzer (`src/intent-analyzer.ts`) and the daily-summary throttle
(`src/daily-summary.ts`).  For the throttle, `Intl.DateTimeFormat` with the
configured timezone is modelled as a fixed-offset clock: `getLocalHour`
takes the timezone's offset from UTC in milliseconds.  Timestamps are
milliseconds since the epoch, as in the source (`Date.now()`).
-/

/-- `hay.includes(needle)` over character lists. -/
def containsSub : List Char → List Char → Bool
  | hay, needle =>
    if listStarts hay needle then true
    else
      match hay with
      | [] => false
      | _ :: t => containsSub t needle

/-- The result type of `analyzeIntent`. -/
inductive MessageIntent where
  | stop
  | correction
  | continue_
deriving DecidableEq, Repr

/-- `STOP_KEYWORDS` from `src/intent-analyzer.ts`. -/
def STOP_KEYWORDS : List String :=
  ["停", "算了", "取消", "不用了", "stop", "cancel", "abort"]

/-- `CORRECTION_KEYWORDS` from `src/intent-analyzer.ts`. -/
def CORRECTION_KEYWORDS : List String :=
  ["不对", "错了", "等等", "重来", "wrong", "redo"]

/-- `MAX_SHORT_MESSAGE_LENGTH` from `src/intent-analyzer.ts`. -/
def MAX_SHORT_MESSAGE_LENGTH : Nat := 50

/-- `analyzeIntent` from `src/intent-analyzer.ts`: empty or long trimmed
input always continues; otherwise exact keyword matches are tried before
substring matches, stop keywords before correction keywords in each
round. -/
def analyzeIntent (text : String) : MessageIntent :=
  let trimmed := jsTrim text
  if trimmed.length == 0 || decide (trimmed.length > MAX_SHORT_MESSAGE_LENGTH) then
    MessageIntent.continue_
  else
    let lower := jsToLower trimmed
    if STOP_KEYWORDS.any (fun kw => lower == kw) then MessageIntent.stop
    else if CORRECTION_KEYWORDS.any (fun kw => lower == kw) then MessageIntent.correction
    else if STOP_KEYWORDS.any (fun kw => containsSub lower.toList kw.toList) then
      MessageIntent.stop
    else if CORRECTION_KEYWORDS.any (fun kw => containsSub lower.toList kw.toList) then
      MessageIntent.correction
    else MessageIntent.continue_

/-- `CHECK_INTERVAL_MS` from `src/daily-summary.ts`: 55 minutes. -/
def CHECK_INTERVAL_MS : Nat := 55 * 60 * 1000

/-- Local hour of a timestamp under a fixed-offset timezone, modelling the
`Intl.DateTimeFormat(..., { hour: 'numeric', timeZone })` read in
`src/daily-summary.ts`. -/
def getLocalHour (tzOffsetMs timestampMs : Nat) : Nat :=
  (timestampMs + tzOffsetMs) / 3600000 % 24

/-- Index of the calendar hour a timestamp falls in (same timezone model);
two timestamps share a calendar hour exactly when these agree. -/
def calendarHourIndex (tzOffsetMs timestampMs : Nat) : Nat :=
  (timestampMs + tzOffsetMs) / 3600000

/-- `runDailySummaryIfNeeded` from `src/daily-summary.ts`: skip unless at
least `CHECK_INTERVAL_MS` has passed since the last non-skipped check,
record the check time, and invoke generation only when the local hour is
in `[2, 3)`.  Returns the new `lastCheckTime` and whether
`generateSummaries` was invoked (its own exceptions are caught in the
source and do not escape). -/
def runDailySummaryIfNeeded (tzOffsetMs now lastCheckTime : Nat) : Nat × Bool :=
  if now - lastCheckTime < CHECK_INTERVAL_MS then
    (lastCheckTime, false)
  else
    let localHour := getLocalHour tzOffsetMs now
    if localHour < 2 || decide (localHour ≥ 3) then (now, false)
    else (now, true)

/-- Fold `runDailySummaryIfNeeded` over a sequence of scheduler tick times,
collecting the timestamps at which summary generation was invoked. -/
def runTicks (tzOffsetMs : Nat) : List Nat → Nat → List Nat
  | [], _ => []
  | t :: ts, lastCheckTime =>
    let r := runDailySummaryIfNeeded tzOffsetMs t lastCheckTime
    if r.2 then t :: runTicks tzOffsetMs ts r.1 else runTicks tzOffsetMs ts r.1

/-- The `declared` MIME of `normalizeImageAttachment`: the normalized
`mimeType` field, or failing that the data-URL hint
(`normalizeImageMimeType(input.mimeType) || hintedMime` in the source). -/
def declaredMimeOf (input : ImageAttachmentInput) (d : String) : Option String :=
  (normalizeImageMimeType input.mimeType).orElse (fun _ => (unwrapBase64Payload d).2)

/-- Example oracle for concrete runs: every forced stop rejects, every
other external call succeeds. -/
def envStopFail : Env :=
  { stopOk := fun _ => false, rmOk := fun _ _ => true, storeOk := true
    newId := "id1", now := "t1" }

/-- Example oracle for concrete runs: every external call succeeds. -/
def envAllOk : Env :=
  { stopOk := fun _ => true, rmOk := fun _ _ => true, storeOk := true
    newId := "id1", now := "t1" }

/-- Example world for concrete runs: folder `f0` backs sibling groups `g1`
and `g2`, `g1` has a live sandbox, and `f0` has a persisted session, a
cache entry and a populated `.claude` directory. -/
def stExample : St :=
  { dbJidsByFolder := [("f0", ["g1", "g2"])]
    claudeDirs := [("f0", ["settings.json", "a.jsonl", "proj"])]
    dbSessions := ["f0"], memSessions := [("f0", "tok")], chats := ["c1"]
    messages := [], running := ["g1"] }

/-!
Theorems.  General helper lemmas first, then one theorem per claim (with
witnesses and counterexamples where required).
-/

theorem listContains_iff_mem (l : List String) (a : String) :
    l.contains a = true ↔ a ∈ l := by
  induction l with
  | nil => simp
  | cons b t ih => simp [List.contains_cons, ih]

theorem pairwise_of_rel_total {α : Type} {R : α → α → Prop} (h : ∀ a b, R a b)
    (l : List α) : l.Pairwise R := by
  induction l with
  | nil => exact List.Pairwise.nil
  | cons a t ih => exact List.Pairwise.cons (fun b _ => h a b) ih

/-- C9: `detectImageMimeTypeStrict` rejects every buffer shorter than 12
bytes outright (even one starting with a complete JPEG or BMP magic
sequence), and every non-`none` result is one of the seven known image
MIME strings. -/
theorem detectImageMimeTypeStrict_spec (buffer : List Nat) :
    (buffer.length < 12 → detectImageMimeTypeStrict buffer = none) ∧
    (∀ m, detectImageMimeTypeStrict buffer = some m → m ∈ knownImageMimes) := by
  constructor
  · intro h
    unfold detectImageMimeTypeStrict
    simp [h]
  · intro m h
    unfold detectImageMimeTypeStrict at h
    repeat' split at h
    all_goals simp_all [knownImageMimes]

/-- Witness for C9: the 3-byte buffer that is exactly the JPEG magic prefix
is rejected, and a 12-byte BMP-signature buffer maps into the known-MIME
list. -/
theorem detectImageMimeTypeStrict_spec_witness :
    detectImageMimeTypeStrict [0xff, 0xd8, 0xff] = none ∧
    "image/bmp" ∈ knownImageMimes := by
  constructor
  · exact (detectImageMimeTypeStrict_spec [0xff, 0xd8, 0xff]).1 (by decide)
  · exact (detectImageMimeTypeStrict_spec
      [0x42, 0x4d, 0, 0, 0, 0, 0, 0, 0, 0, 0, 0]).2 "image/bmp" (by decide)

/-- C10: `analyzeIntent` returns `continue_` whenever the trimmed input is
empty or longer than `MAX_SHORT_MESSAGE_LENGTH`, regardless of the
keywords the text contains; within the limit, an exact (case-insensitive)
match of a stop keyword yields `stop` and an exact match of a correction
keyword yields `correction`, ahead of any substring matching. -/
theorem analyzeIntent_spec (text : String) :
    (((jsTrim text).length = 0 ∨ MAX_SHORT_MESSAGE_LENGTH < (jsTrim text).length) →
       analyzeIntent text = MessageIntent.continue_) ∧
    (∀ kw ∈ STOP_KEYWORDS, 0 < (jsTrim text).length →
       (jsTrim text).length ≤ MAX_SHORT_MESSAGE_LENGTH → jsToLower (jsTrim text) = kw →
       analyzeIntent text = MessageIntent.stop) ∧
    (∀ kw ∈ CORRECTION_KEYWORDS, 0 < (jsTrim text).length →
       (jsTrim text).length ≤ MAX_SHORT_MESSAGE_LENGTH → jsToLower (jsTrim text) = kw →
       analyzeIntent text = MessageIntent.correction) := by
  refine ⟨?_, ?_, ?_⟩
  · intro h
    have hg : ((jsTrim text).length == 0 ||
        decide ((jsTrim text).length > MAX_SHORT_MESSAGE_LENGTH)) = true := by
      rcases h with h | h
      · simp [h]
      · simp [h]
    simp [analyzeIntent, hg]
  · intro kw hkw h1 h2 h3
    have hg : ((jsTrim text).length == 0 ||
        decide ((jsTrim text).length > MAX_SHORT_MESSAGE_LENGTH)) = false := by
      simp only [Bool.or_eq_false_iff, beq_eq_false_iff_ne, ne_eq, decide_eq_false_iff_not,
        not_lt, MAX_SHORT_MESSAGE_LENGTH]
      have h2' : (jsTrim text).length ≤ 50 := h2
      omega
    have hany : STOP_KEYWORDS.any (fun k => jsToLower (jsTrim text) == k) = true :=
      List.any_eq_true.mpr ⟨kw, hkw, by simp [h3]⟩
    simp [analyzeIntent, hg, hany]
  · intro kw hkw h1 h2 h3
    have hg : ((jsTrim text).length == 0 ||
        decide ((jsTrim text).length > MAX_SHORT_MESSAGE_LENGTH)) = false := by
      simp only [Bool.or_eq_false_iff, beq_eq_false_iff_ne, ne_eq, decide_eq_false_iff_not,
        not_lt, MAX_SHORT_MESSAGE_LENGTH]
      have h2' : (jsTrim text).length ≤ 50 := h2
      omega
    have hstop : STOP_KEYWORDS.any (fun k => jsToLower (jsTrim text) == k) = false := by
      rw [h3]
      fin_cases hkw <;> decide
    have hcorr : CORRECTION_KEYWORDS.any (fun k => jsToLower (jsTrim text) == k) = true :=
      List.any_eq_true.mpr ⟨kw, hkw, by simp [h3]⟩
    simp [analyzeIntent, hg, hstop, hcorr]

/-- Witness for C10: a 54-character message containing the keyword `stop`
still continues; the exactly matching inputs `" Stop "` and `"等等"`
return `stop` and `correction`. -/
theorem analyzeIntent_spec_witness :
    analyzeIntent "aaaaaaaaaaaaaaaaaaaaaaaaaaaaaaaaaaaaaaaaaaaaaaaastop!" =
      MessageIntent.continue_ ∧
    analyzeIntent " Stop " = MessageIntent.stop ∧
    analyzeIntent "等等" = MessageIntent.correction := by
  refine ⟨?_, ?_, ?_⟩
  · exact (analyzeIntent_spec
      "aaaaaaaaaaaaaaaaaaaaaaaaaaaaaaaaaaaaaaaaaaaaaaaastop!").1 (by decide)
  · exact (analyzeIntent_spec " Stop ").2.1 "stop" (by decide) (by decide) (by decide)
      (by decide)
  · exact (analyzeIntent_spec "等等").2.2 "等等" (by decide) (by decide) (by decide)
      (by decide)

theorem runTicks_lower_bound (tz : Nat) (ticks : List Nat) :
    ∀ last0, ∀ t ∈ runTicks tz ticks last0, last0 + CHECK_INTERVAL_MS ≤ t := by
  induction ticks with
  | nil => intro last0 t ht; simp [runTicks] at ht
  | cons t0 ts ih =>
    intro last0 t ht
    by_cases h1 : t0 - last0 < CHECK_INTERVAL_MS
    · rw [show runTicks tz (t0 :: ts) last0 = runTicks tz ts last0 from by
        simp [runTicks, runDailySummaryIfNeeded, h1]] at ht
      exact ih last0 t ht
    · have hth : last0 + CHECK_INTERVAL_MS ≤ t0 := by
        have h1' : ¬(t0 - last0 < 3300000) := h1
        show last0 + 3300000 ≤ t0
        omega
      by_cases h2 : (decide (getLocalHour tz t0 < 2) || decide (getLocalHour tz t0 ≥ 3)) = true
      · rw [show runTicks tz (t0 :: ts) last0 = runTicks tz ts t0 from by
          simp only [runTicks, runDailySummaryIfNeeded, if_neg h1, if_pos h2,
            Bool.false_eq_true, if_false]] at ht
        have := ih t0 t ht
        omega
      · rw [Bool.not_eq_true] at h2
        rw [show runTicks tz (t0 :: ts) last0 = t0 :: runTicks tz ts t0 from by
          simp only [runTicks, runDailySummaryIfNeeded, if_neg h1, h2, Bool.false_eq_true,
            if_false, if_true]] at ht
        rcases List.mem_cons.mp ht with rfl | hmem
        · exact hth
        · have := ih t0 t hmem
          omega

/-- C7 (amended): across any sequence of scheduler ticks, the
daily-summary job is invoked only when the local hour is 2 (the fixed
2:00-3:00 AM window) and consecutive invocations are at least
`CHECK_INTERVAL_MS` (55 minutes) apart — which permits two invocations in
one calendar hour, so "at most once per calendar hour" does not hold. -/
theorem runDailySummary_throttle_window (tz : Nat) (ticks : List Nat) (last0 : Nat) :
    (∀ t ∈ runTicks tz ticks last0, getLocalHour tz t = 2) ∧
    (runTicks tz ticks last0).Pairwise (fun a b => a + CHECK_INTERVAL_MS ≤ b) := by
  constructor
  · induction ticks generalizing last0 with
    | nil => intro t ht; simp [runTicks] at ht
    | cons t0 ts ih =>
      intro t ht
      by_cases h1 : t0 - last0 < CHECK_INTERVAL_MS
      · rw [show runTicks tz (t0 :: ts) last0 = runTicks tz ts last0 from by
          simp [runTicks, runDailySummaryIfNeeded, h1]] at ht
        exact ih last0 t ht
      · by_cases h2 : (decide (getLocalHour tz t0 < 2) ||
            decide (getLocalHour tz t0 ≥ 3)) = true
        · rw [show runTicks tz (t0 :: ts) last0 = runTicks tz ts t0 from by
            simp only [runTicks, runDailySummaryIfNeeded, if_neg h1, if_pos h2,
              Bool.false_eq_true, if_false]] at ht
          exact ih t0 t ht
        · rw [Bool.not_eq_true] at h2
          rw [show runTicks tz (t0 :: ts) last0 = t0 :: runTicks tz ts t0 from by
            simp only [runTicks, runDailySummaryIfNeeded, if_neg h1, h2, Bool.false_eq_true,
              if_false, if_true]] at ht
          rcases List.mem_cons.mp ht with rfl | hmem
          · simp only [Bool.or_eq_false_iff, decide_eq_false_iff_not, not_lt, ge_iff_le,
              not_le] at h2
            omega
          · exact ih t0 t hmem
  · induction ticks generalizing last0 with
    | nil => simp [runTicks]
    | cons t0 ts ih =>
      by_cases h1 : t0 - last0 < CHECK_INTERVAL_MS
      · rw [show runTicks tz (t0 :: ts) last0 = runTicks tz ts last0 from by
          simp [runTicks, runDailySummaryIfNeeded, h1]]
        exact ih last0
      · by_cases h2 : (decide (getLocalHour tz t0 < 2) ||
            decide (getLocalHour tz t0 ≥ 3)) = true
        · rw [show runTicks tz (t0 :: ts) last0 = runTicks tz ts t0 from by
            simp only [runTicks, runDailySummaryIfNeeded, if_neg h1, if_pos h2,
              Bool.false_eq_true, if_false]]
          exact ih t0
        · rw [Bool.not_eq_true] at h2
          rw [show runTicks tz (t0 :: ts) last0 = t0 :: runTicks tz ts t0 from by
            simp only [runTicks, runDailySummaryIfNeeded, if_neg h1, h2, Bool.false_eq_true,
              if_false, if_true]]
          exact List.Pairwise.cons (fun b hb => runTicks_lower_bound tz ts t0 b hb) (ih t0)

/-- Counterexample for C7 as stated: with a zero timezone offset, ticks at
02:00:00 and 02:55:00 of the same day both pass the 55-minute throttle and
the window check, so summary generation is invoked twice within one
calendar hour. -/
theorem runDailySummary_twice_per_hour_counterexample :
    runTicks 0 [7200000, 10500000] 0 = [7200000, 10500000] ∧
    calendarHourIndex 0 7200000 = calendarHourIndex 0 10500000 := by
  constructor
  · decide
  · decide

/-- Witness for C7's amended theorem at a concrete tick sequence. -/
theorem runDailySummary_throttle_window_witness :
    7200000 ∈ runTicks 0 [7200000] 0 ∧ getLocalHour 0 7200000 = 2 :=
  ⟨by decide, (runDailySummary_throttle_window 0 [7200000] 0).1 7200000 (by decide)⟩

theorem assocLookup_map_update (l : List (String × List String)) (folder : String)
    (kept : List String) :
    assocLookup (l.map (fun p => if p.1 == folder then (p.1, kept) else p)) folder
      = (assocLookup l folder).map (fun _ => kept) := by
  induction l with
  | nil => rfl
  | cons q t ih =>
    cases hq : (q.1 == folder) with
    | true =>
      simp only [List.map_cons, assocLookup, hq, eq_self_iff_true, if_true, Option.map_some']
    | false =>
      simp only [List.map_cons, assocLookup, hq, Bool.false_eq_true, if_false]
      exact ih

theorem assocLookup_map_other (l : List (String × List String)) (folder f' : String)
    (kept : List String) (h : f' ≠ folder) :
    assocLookup (l.map (fun p => if p.1 == folder then (p.1, kept) else p)) f'
      = assocLookup l f' := by
  induction l with
  | nil => rfl
  | cons q t ih =>
    cases hq : (q.1 == folder) with
    | true =>
      have hq' : q.1 = folder := by simpa using hq
      have hqf : (q.1 == f') = false := by
        rw [hq']
        exact beq_eq_false_iff_ne.mpr (Ne.symm h)
      simp only [List.map_cons, assocLookup, hq, hqf, eq_self_iff_true, if_true,
        Bool.false_eq_true, if_false]
      exact ih
    | false =>
      cases hqf : (q.1 == f') with
      | true =>
        simp only [List.map_cons, assocLookup, hq, hqf, eq_self_iff_true, if_true,
          Bool.false_eq_true, if_false]
      | false =>
        simp only [List.map_cons, assocLookup, hq, hqf, Bool.false_eq_true, if_false]
        exact ih

theorem lookupDir_clearSessionFiles_self (env : Env) (folder : String) (s : St) :
    lookupDir (clearSessionFiles env folder s) folder =
      (lookupDir s folder).map
        (fun entries => entries.filter (fun e => e == "settings.json" || !env.rmOk folder e)) := by
  cases hl : lookupDir s folder with
  | none =>
    unfold clearSessionFiles
    rw [hl]
    exact hl
  | some entries =>
    unfold clearSessionFiles
    rw [hl]
    dsimp only
    unfold lookupDir
    dsimp only
    rw [assocLookup_map_update]
    rw [show assocLookup s.claudeDirs folder = some entries from hl]
    rfl

theorem lookupDir_clearSessionFiles_other (env : Env) (folder f' : String) (s : St)
    (h : f' ≠ folder) :
    lookupDir (clearSessionFiles env folder s) f' = lookupDir s f' := by
  cases hl : lookupDir s folder with
  | none =>
    unfold clearSessionFiles
    rw [hl]
  | some entries =>
    unfold clearSessionFiles
    rw [hl]
    dsimp only
    unfold lookupDir
    dsimp only
    rw [assocLookup_map_other _ _ _ _ h]

theorem clearSessionFiles_other_fields (env : Env) (folder : String) (s : St) :
    (clearSessionFiles env folder s).dbJidsByFolder = s.dbJidsByFolder ∧
    (clearSessionFiles env folder s).dbSessions = s.dbSessions ∧
    (clearSessionFiles env folder s).memSessions = s.memSessions ∧
    (clearSessionFiles env folder s).chats = s.chats ∧
    (clearSessionFiles env folder s).messages = s.messages ∧
    (clearSessionFiles env folder s).running = s.running := by
  unfold clearSessionFiles
  cases lookupDir s folder <;> exact ⟨rfl, rfl, rfl, rfl, rfl, rfl⟩

/-- C4: `clearSessionFiles` never throws (it is total for every oracle of
individual `rmSync` failures); a missing directory is a no-op; the
resulting directory holds exactly the entries that are `settings.json` or
whose removal failed (so every removal failure is skipped, not fatal);
`settings.json` itself is never removed; and no other folder's directory
is touched. -/
theorem clearSessionFiles_spec (env : Env) (folder : String) (s : St) :
    (lookupDir s folder = none → clearSessionFiles env folder s = s) ∧
    lookupDir (clearSessionFiles env folder s) folder =
      (lookupDir s folder).map
        (fun entries => entries.filter (fun e => e == "settings.json" || !env.rmOk folder e)) ∧
    (∀ f', f' ≠ folder → lookupDir (clearSessionFiles env folder s) f' = lookupDir s f') ∧
    (∀ entries, lookupDir s folder = some entries → "settings.json" ∈ entries →
       ∃ kept, lookupDir (clearSessionFiles env folder s) folder = some kept ∧
         "settings.json" ∈ kept ∧ ∀ e ∈ kept, e ∈ entries) := by
  refine ⟨?_, lookupDir_clearSessionFiles_self env folder s,
    fun f' h => lookupDir_clearSessionFiles_other env folder f' s h, ?_⟩
  · intro h
    unfold clearSessionFiles
    rw [h]
  · intro entries hl hset
    refine ⟨entries.filter (fun e => e == "settings.json" || !env.rmOk folder e), ?_, ?_, ?_⟩
    · rw [lookupDir_clearSessionFiles_self env folder s, hl]
      rfl
    · exact List.mem_filter.mpr ⟨hset, by simp⟩
    · intro e he
      exact (List.mem_filter.mp he).1

/-- Witness for C4 at a concrete directory with one failing removal: the
unremovable entry and `settings.json` survive, the removable entry is
gone, and nothing new appears. -/
theorem clearSessionFiles_spec_witness :
    lookupDir
        { dbJidsByFolder := [], claudeDirs := [("f0", ["settings.json", "a.jsonl", "broken"])],
          dbSessions := [], memSessions := [], chats := [], messages := [], running := [] }
        "f0" = some ["settings.json", "a.jsonl", "broken"] ∧
    ∃ kept,
      lookupDir
          (clearSessionFiles
            { stopOk := fun _ => true, rmOk := fun _ e => e != "broken", storeOk := true,
              newId := "id1", now := "t1" }
            "f0"
            { dbJidsByFolder := [],
              claudeDirs := [("f0", ["settings.json", "a.jsonl", "broken"])],
              dbSessions := [], memSessions := [], chats := [], messages := [], running := [] })
          "f0" = some kept ∧
      "settings.json" ∈ kept ∧ ∀ e ∈ kept, e ∈ ["settings.json", "a.jsonl", "broken"] :=
  ⟨rfl,
   (clearSessionFiles_spec
       { stopOk := fun _ => true, rmOk := fun _ e => e != "broken", storeOk := true,
         newId := "id1", now := "t1" }
       "f0"
       { dbJidsByFolder := [], claudeDirs := [("f0", ["settings.json", "a.jsonl", "broken"])],
         dbSessions := [], memSessions := [], chats := [], messages := [], running := [] }).2.2.2
     ["settings.json", "a.jsonl", "broken"] rfl (by decide)⟩

/-- C1 (amended): `executeSessionReset` rejects exactly when some sibling's
forced `stopGroup` rejects (the `Promise.all` propagates it) or the final
marker-message insertion fails; session-file cleanup failures (`rmOk`)
never cause a rejection, as the right-hand side does not depend on them. -/
theorem executeSessionReset_error_characterization (env : Env) (c f : String) (s : St) :
    resetResultOk (executeSessionReset env c f s) = false ↔
      ((∃ j ∈ getJidsByFolder s f, j ∈ s.running ∧ env.stopOk j = false) ∨
        env.storeOk = false) := by
  cases hb : resetStopFailed env f s with
  | true =>
    have hb' := hb
    unfold resetStopFailed at hb'
    have hex : ∃ j ∈ getJidsByFolder s f, j ∈ s.running ∧ env.stopOk j = false := by
      obtain ⟨j, hj, hcond⟩ := List.any_eq_true.mp hb'
      rw [Bool.and_eq_true, Bool.not_eq_true'] at hcond
      exact ⟨j, hj, (listContains_iff_mem _ _).mp hcond.1, hcond.2⟩
    constructor
    · intro _
      exact Or.inl hex
    · intro _
      simp only [executeSessionReset, hb, eq_self_iff_true, if_true]
      rfl
  | false =>
    have hb' := hb
    unfold resetStopFailed at hb'
    cases hst : env.storeOk with
    | true =>
      have hok : resetResultOk (executeSessionReset env c f s) = true := by
        simp only [executeSessionReset, hb, Bool.false_eq_true, if_false, hst,
          eq_self_iff_true, if_true]
        rfl
      constructor
      · intro hcontra
        rw [hok] at hcontra
        exact Bool.noConfusion hcontra
      · rintro (⟨j, hj, hrun, hstop⟩ | hsf)
        · have : (getJidsByFolder s f).any (fun j => s.running.contains j && !env.stopOk j)
              = true :=
            List.any_eq_true.mpr ⟨j, hj, by
              rw [Bool.and_eq_true, Bool.not_eq_true']
              exact ⟨(listContains_iff_mem _ _).mpr hrun, hstop⟩⟩
          rw [hb'] at this
          exact Bool.noConfusion this
        · exact Bool.noConfusion hsf
    | false =>
      have herr : resetResultOk (executeSessionReset env c f s) = false := by
        simp only [executeSessionReset, hb, Bool.false_eq_true, if_false, hst]
        rfl
      constructor
      · intro _
        exact Or.inr rfl
      · intro _
        exact herr

/-- Counterexample for C1 as stated: in `stExample`, sibling `g1` is
running and its forced stop rejects, so the whole reset rejects with the
stop failure even though the marker-message insertion oracle succeeds. -/
theorem executeSessionReset_stop_rejection_counterexample :
    resetErrOf (executeSessionReset envStopFail "c1" "f0" stExample) =
      some ResetErr.stopFailed ∧
    envStopFail.storeOk = true :=
  ⟨rfl, rfl⟩

theorem stops_append_pairwise (jids : List String) (tail : List Ev)
    (ht : tail.Pairwise (fun a b => evPhase a ≤ evPhase b)) :
    ((jids.map Ev.stop) ++ tail).Pairwise (fun a b => evPhase a ≤ evPhase b) := by
  rw [List.pairwise_append]
  refine ⟨?_, ht, ?_⟩
  · exact (List.pairwise_map).mpr
      (pairwise_of_rel_total (fun a b => by simp [evPhase]) jids)
  · intro a ha b hb
    obtain ⟨j, _, rfl⟩ := List.mem_map.mp ha
    simp [evPhase]

/-- C2: every trace `executeSessionReset` emits is ordered by phase — all
sibling stops precede the artifact deletion, which precedes the session
record deletion, which precedes the marker insertion and its broadcast —
and a resolving run emits all five phases in exactly that order. -/
theorem executeSessionReset_phase_ordering (env : Env) (c f : String) (s : St) :
    ((executeSessionReset env c f s).2).Pairwise (fun a b => evPhase a ≤ evPhase b) ∧
    (∀ s', (executeSessionReset env c f s).1 = Except.ok s' →
       (executeSessionReset env c f s).2 =
         (getJidsByFolder s f).map Ev.stop ++
           [Ev.clearFiles f, Ev.deleteSession f, Ev.store (resetMarkerMsg env c),
            Ev.broadcast (resetMarkerMsg env c)]) := by
  cases hb : resetStopFailed env f s with
  | true =>
    constructor
    · simp only [executeSessionReset, hb, eq_self_iff_true, if_true]
      exact (List.pairwise_map).mpr (pairwise_of_rel_total (fun a b => le_refl 0) _)
    · intro s' h
      simp only [executeSessionReset, hb, eq_self_iff_true, if_true] at h
      simp at h
  | false =>
    cases hst : env.storeOk with
    | true =>
      constructor
      · simp only [executeSessionReset, hb, Bool.false_eq_true, if_false, hst,
          eq_self_iff_true, if_true]
        exact stops_append_pairwise _ _ (by simp [List.pairwise_cons, evPhase])
      · intro s' h
        simp only [executeSessionReset, hb, Bool.false_eq_true, if_false, hst,
          eq_self_iff_true, if_true]
    | false =>
      constructor
      · simp only [executeSessionReset, hb, Bool.false_eq_true, if_false, hst]
        exact stops_append_pairwise _ _ (by simp [List.pairwise_cons, evPhase])
      · intro s' h
        simp only [executeSessionReset, hb, Bool.false_eq_true, if_false, hst] at h
        simp at h

/-- Witness for C2: a concrete resolving reset emits the full five-phase
trace in order. -/
theorem executeSessionReset_phase_ordering_witness :
    (executeSessionReset envAllOk "c1" "f0" stExample).1 =
      Except.ok (resetSuccessState envAllOk "c1" "f0" stExample) ∧
    (executeSessionReset envAllOk "c1" "f0" stExample).2 =
      (getJidsByFolder stExample "f0").map Ev.stop ++
        [Ev.clearFiles "f0", Ev.deleteSession "f0", Ev.store (resetMarkerMsg envAllOk "c1"),
         Ev.broadcast (resetMarkerMsg envAllOk "c1")] :=
  ⟨rfl, (executeSessionReset_phase_ordering envAllOk "c1" "f0" stExample).2 _ rfl⟩

theorem resetSuccessState_fields (env : Env) (c f : String) (s : St) :
    (resetSuccessState env c f s).messages = s.messages ++ [resetMarkerMsg env c] ∧
    (resetSuccessState env c f s).dbSessions = s.dbSessions.filter (fun g => g != f) ∧
    (resetSuccessState env c f s).memSessions = s.memSessions.filter (fun p => p.1 != f) ∧
    (resetSuccessState env c f s).dbJidsByFolder = s.dbJidsByFolder ∧
    lookupDir (resetSuccessState env c f s) f =
      (lookupDir s f).map
        (fun entries => entries.filter (fun e => e == "settings.json" || !env.rmOk f e)) ∧
    (∀ f', f' ≠ f → lookupDir (resetSuccessState env c f s) f' = lookupDir s f') ∧
    (resetSuccessState env c f s).running =
      s.running.filter (fun j => !((getJidsByFolder s f).contains j && env.stopOk j)) := by
  obtain ⟨hjids, hdb, hmem, hchats, hmsgs, hrun⟩ :=
    clearSessionFiles_other_fields env f (resetStopSiblings env f s)
  refine ⟨?_, ?_, ?_, ?_, ?_, ?_, ?_⟩
  · show (clearSessionFiles env f (resetStopSiblings env f s)).messages ++
        [resetMarkerMsg env c] = s.messages ++ [resetMarkerMsg env c]
    rw [hmsgs]
    rfl
  · show (clearSessionFiles env f (resetStopSiblings env f s)).dbSessions.filter
        (fun g => g != f) = s.dbSessions.filter (fun g => g != f)
    rw [hdb]
    rfl
  · show (clearSessionFiles env f (resetStopSiblings env f s)).memSessions.filter
        (fun p => p.1 != f) = s.memSessions.filter (fun p => p.1 != f)
    rw [hmem]
    rfl
  · exact hjids
  · show lookupDir (clearSessionFiles env f (resetStopSiblings env f s)) f = _
    rw [lookupDir_clearSessionFiles_self]
    rfl
  · intro f' h
    show lookupDir (clearSessionFiles env f (resetStopSiblings env f s)) f' = _
    rw [lookupDir_clearSessionFiles_other env f f' _ h]
    rfl
  · exact hrun

theorem filter_broadcast_stops (jids : List String) :
    (jids.map Ev.stop).filter evIsBroadcast = [] := by
  induction jids with
  | nil => rfl
  | cons j t ih => simp [evIsBroadcast, ih]

/-- C5 (amended): every resolving `executeSessionReset(c, f)` appends
exactly one marker message — whose content is the literal
`"context_reset"`, not `"context reset"` — to the originating chat `c`'s
history, changes no other chat's history, and broadcasts exactly that same
message. -/
theorem executeSessionReset_marker_message (env : Env) (c f : String) (s s' : St)
    (h : (executeSessionReset env c f s).1 = Except.ok s') :
    s'.messages = s.messages ++ [resetMarkerMsg env c] ∧
    (resetMarkerMsg env c).chat_jid = c ∧
    (resetMarkerMsg env c).content = "context_reset" ∧
    (∀ j, j ≠ c → s'.messages.filter (fun m => m.chat_jid == j)
        = s.messages.filter (fun m => m.chat_jid == j)) ∧
    ((executeSessionReset env c f s).2).filter evIsBroadcast =
      [Ev.broadcast (resetMarkerMsg env c)] := by
  cases hb : resetStopFailed env f s with
  | true =>
    simp only [executeSessionReset, hb, eq_self_iff_true, if_true] at h
    simp at h
  | false =>
    cases hst : env.storeOk with
    | false =>
      simp only [executeSessionReset, hb, Bool.false_eq_true, if_false, hst] at h
      simp at h
    | true =>
      simp only [executeSessionReset, hb, Bool.false_eq_true, if_false, hst,
        eq_self_iff_true, if_true, Except.ok.injEq] at h
      subst h
      obtain ⟨hmsgs, -, -, -, -, -, -⟩ := resetSuccessState_fields env c f s
      refine ⟨hmsgs, rfl, rfl, ?_, ?_⟩
      · intro j hj
        rw [hmsgs, List.filter_append]
        have hne : ((resetMarkerMsg env c).chat_jid == j) = false :=
          beq_eq_false_iff_ne.mpr (Ne.symm hj)
        simp [hne]
      · simp only [executeSessionReset, hb, Bool.false_eq_true, if_false, hst,
          eq_self_iff_true, if_true]
        rw [List.filter_append, filter_broadcast_stops]
        rfl

/-- Counterexample for C5 as stated: a concrete resolving reset inserts
exactly one message, and no inserted message has content
`"context reset"` (the stored content is `"context_reset"`). -/
theorem executeSessionReset_marker_content_counterexample :
    resetResultOk (executeSessionReset envAllOk "c1" "f0" stExample) = true ∧
    (resetResultMessages (executeSessionReset envAllOk "c1" "f0" stExample)).length = 1 ∧
    (resetResultMessages (executeSessionReset envAllOk "c1" "f0" stExample)).all
      (fun m => m.content != "context reset") = true :=
  ⟨rfl, rfl, rfl⟩

/-- Witness for C5's amended theorem at a concrete resolving reset. -/
theorem executeSessionReset_marker_message_witness :
    (executeSessionReset envAllOk "c1" "f0" stExample).1 =
      Except.ok (resetSuccessState envAllOk "c1" "f0" stExample) ∧
    (resetSuccessState envAllOk "c1" "f0" stExample).messages =
      stExample.messages ++ [resetMarkerMsg envAllOk "c1"] :=
  ⟨rfl, (executeSessionReset_marker_message envAllOk "c1" "f0" stExample _ rfl).1⟩

theorem not_mem_filter_self (l : List String) (f : String) :
    f ∉ l.filter (fun g => g != f) := by
  intro hmem
  have h := (List.mem_filter.mp hmem).2
  simp at h

theorem pair_not_mem_filter_self (l : List (String × String)) (f v : String) :
    (f, v) ∉ l.filter (fun p => p.1 != f) := by
  intro hmem
  have h := (List.mem_filter.mp hmem).2
  simp at h

theorem getJidsByFolder_congr (s1 s2 : St) (f : String)
    (h : s1.dbJidsByFolder = s2.dbJidsByFolder) :
    getJidsByFolder s1 f = getJidsByFolder s2 f := by
  unfold getJidsByFolder
  rw [h]

theorem resetEndState_of_success (env : Env) (c f : String) (s : St)
    (hdir : ∀ l, lookupDir (resetSuccessState env c f s) f = some l →
       ∀ e ∈ l, e = "settings.json") :
    ResetEndState c f (resetSuccessState env c f s) := by
  obtain ⟨hmsgs, hdb, hmem, -, -, -, -⟩ := resetSuccessState_fields env c f s
  refine ⟨?_, ?_, hdir, ?_⟩
  · rw [hdb]
    exact not_mem_filter_self _ _
  · intro v
    rw [hmem]
    exact pair_not_mem_filter_self _ _ _
  · rw [hmsgs, List.filter_append]
    have hone : (List.filter (fun m => m.chat_jid == c && m.content == "context_reset")
        [resetMarkerMsg env c]).length = 1 := by
      simp [resetMarkerMsg]
    rw [List.length_append, hone]
    omega

theorem resetSuccess_dir_allowlist (env : Env) (c f : String) (s : St)
    (hrm : ∀ e, env.rmOk f e = true) :
    ∀ l, lookupDir (resetSuccessState env c f s) f = some l →
      ∀ e ∈ l, e = "settings.json" := by
  obtain ⟨-, -, -, -, hdir, -, -⟩ := resetSuccessState_fields env c f s
  intro l hl e he
  rw [hdir] at hl
  cases hs : lookupDir s f with
  | none =>
    rw [hs] at hl
    simp at hl
  | some entries =>
    rw [hs] at hl
    have hl' := Option.some.inj hl
    subst hl'
    have hp := (List.mem_filter.mp he).2
    rw [hrm e] at hp
    simp at hp
    exact hp

theorem resetSuccess_dir_allowlist_again (env : Env) (c f : String) (s : St)
    (hprev : ∀ l, lookupDir s f = some l → ∀ e ∈ l, e = "settings.json") :
    ∀ l, lookupDir (resetSuccessState env c f s) f = some l →
      ∀ e ∈ l, e = "settings.json" := by
  obtain ⟨-, -, -, -, hdir, -, -⟩ := resetSuccessState_fields env c f s
  intro l hl e he
  rw [hdir] at hl
  cases hs : lookupDir s f with
  | none =>
    rw [hs] at hl
    simp at hl
  | some entries =>
    rw [hs] at hl
    have hl' := Option.some.inj hl
    subst hl'
    exact hprev entries hs e (List.mem_filter.mp he).1

theorem resetSuccess_stopFailed_false (env1 env2 : Env) (c f : String) (s : St)
    (hb1 : resetStopFailed env1 f s = false) :
    resetStopFailed env2 f (resetSuccessState env1 c f s) = false := by
  obtain ⟨-, -, -, hjids, -, -, hrun⟩ := resetSuccessState_fields env1 c f s
  unfold resetStopFailed at hb1 ⊢
  rw [getJidsByFolder_congr _ s f hjids]
  rw [List.any_eq_false] at hb1 ⊢
  intro j hj
  have hnot : j ∉ s.running.filter
      (fun j' => !((getJidsByFolder s f).contains j' && env1.stopOk j')) := by
    intro hmem
    obtain ⟨hmemrun, hpred⟩ := List.mem_filter.mp hmem
    have hcr : s.running.contains j = true := (listContains_iff_mem _ _).mpr hmemrun
    have hcj : (getJidsByFolder s f).contains j = true := (listContains_iff_mem _ _).mpr hj
    have hb1j := hb1 j hj
    simp [hcr] at hb1j
    simp [hcj, hb1j] at hpred
    rcases hpred with h | h
    · exact h hj
    · rw [hb1j hmemrun] at h
      exact Bool.noConfusion h
  have hcont : (resetSuccessState env1 c f s).running.contains j = false := by
    rw [hrun]
    cases hc : (s.running.filter
        (fun j' => !((getJidsByFolder s f).contains j' && env1.stopOk j'))).contains j with
    | false => rfl
    | true => exact absurd ((listContains_iff_mem _ _).mp hc) hnot
  intro hcontra
  rw [Bool.and_eq_true] at hcontra
  rw [hcont] at hcontra
  exact Bool.noConfusion hcontra.1

/-- C6: when the first reset resolves (and artifact removal succeeds, as
the described end state presumes), the reset's end state holds — no
session record, no cache entry, nothing but `settings.json` in the
session directory, at least one marker recorded — and a second reset with
a working marker insert resolves again (its sibling stops are no-ops on
the already-stopped groups) and re-establishes the very same end state. -/
theorem executeSessionReset_idempotent (env1 env2 : Env) (c f : String) (s s1 : St)
    (h1 : (executeSessionReset env1 c f s).1 = Except.ok s1)
    (hrm : ∀ e, env1.rmOk f e = true)
    (hst2 : env2.storeOk = true) :
    ResetEndState c f s1 ∧
    ∃ s2, (executeSessionReset env2 c f s1).1 = Except.ok s2 ∧ ResetEndState c f s2 := by
  cases hb : resetStopFailed env1 f s with
  | true =>
    simp only [executeSessionReset, hb, eq_self_iff_true, if_true] at h1
    simp at h1
  | false =>
    cases hst1 : env1.storeOk with
    | false =>
      simp only [executeSessionReset, hb, Bool.false_eq_true, if_false, hst1] at h1
      simp at h1
    | true =>
      simp only [executeSessionReset, hb, Bool.false_eq_true, if_false, hst1,
        eq_self_iff_true, if_true, Except.ok.injEq] at h1
      subst h1
      have hdir1 := resetSuccess_dir_allowlist env1 c f s hrm
      have hend1 := resetEndState_of_success env1 c f s hdir1
      refine ⟨hend1, resetSuccessState env2 c f (resetSuccessState env1 c f s), ?_, ?_⟩
      · have hb2 := resetSuccess_stopFailed_false env1 env2 c f s hb
        simp only [executeSessionReset, hb2, Bool.false_eq_true, if_false, hst2,
          eq_self_iff_true, if_true]
      · exact resetEndState_of_success env2 c f _
          (resetSuccess_dir_allowlist_again env2 c f _ hdir1)

/-- Witness for C6 at a concrete resolving reset whose removals all
succeed. -/
theorem executeSessionReset_idempotent_witness :
    (executeSessionReset envAllOk "c1" "f0" stExample).1 =
      Except.ok (resetSuccessState envAllOk "c1" "f0" stExample) ∧
    (∀ e, envAllOk.rmOk "f0" e = true) ∧
    envAllOk.storeOk = true ∧
    ResetEndState "c1" "f0" (resetSuccessState envAllOk "c1" "f0" stExample) :=
  ⟨rfl, fun _ => rfl, rfl,
   (executeSessionReset_idempotent envAllOk envAllOk "c1" "f0" stExample _ rfl
      (fun _ => rfl) rfl).1⟩

theorem resolveImageMimeType_mismatch (dec det : String) (h : dec ≠ det) :
    resolveImageMimeType (some dec) (some det) = (det, some (dec, det)) := by
  simp [resolveImageMimeType, h]

theorem resolveImageMimeType_agree (dec : String) :
    resolveImageMimeType (some dec) (some dec) = (dec, none) := by
  simp [resolveImageMimeType]

/-- C8: for every accepted image attachment input (type absent or
`'image'`, string data with a non-empty base64 payload) and any detector
outcome, the returned `mimeType` follows `resolveImageMimeType`'s policy:
a declared/detected disagreement returns the detected type and fires the
mismatch callback with both values; agreement or a missing detection
returns the declared type silently; detection alone returns the detected
type; and with neither, `image/jpeg`. -/
theorem normalizeImageAttachment_mime_resolution
    (detect : String → Option String) (input : ImageAttachmentInput)
    (att : NormalizedImageAttachment) (ev : Option (String × String)) (d : String)
    (hdata : input.data = JsVal.str d)
    (h : normalizeImageAttachment detect input = (some att, ev)) :
    att.data = (unwrapBase64Payload d).1 ∧
    (∀ dec det, declaredMimeOf input d = some dec →
       detect (unwrapBase64Payload d).1 = some det → dec ≠ det →
       att.mimeType = det ∧ ev = some (dec, det)) ∧
    (∀ dec, declaredMimeOf input d = some dec →
       (detect (unwrapBase64Payload d).1 = none ∨
        detect (unwrapBase64Payload d).1 = some dec) →
       att.mimeType = dec ∧ ev = none) ∧
    (∀ det, declaredMimeOf input d = none →
       detect (unwrapBase64Payload d).1 = some det →
       att.mimeType = det ∧ ev = none) ∧
    (declaredMimeOf input d = none → detect (unwrapBase64Payload d).1 = none →
       att.mimeType = "image/jpeg" ∧ ev = none) := by
  unfold normalizeImageAttachment at h
  rw [hdata] at h
  dsimp only at h
  repeat' split at h
  all_goals try (exfalso; simp at h; done)
  rw [Prod.mk.injEq] at h
  obtain ⟨h1, h2⟩ := h
  have ha := Option.some.inj h1
  subst ha
  subst h2
  refine ⟨rfl, ?_, ?_, ?_, ?_⟩
  · intro dec det hdec hdet hne
    unfold declaredMimeOf at hdec
    rw [hdec, hdet, resolveImageMimeType_mismatch dec det hne]
    exact ⟨rfl, rfl⟩
  · intro dec hdec hdet
    unfold declaredMimeOf at hdec
    rcases hdet with hdet | hdet
    · rw [hdec, hdet]
      exact ⟨rfl, rfl⟩
    · rw [hdec, hdet, resolveImageMimeType_agree dec]
      exact ⟨rfl, rfl⟩
  · intro det hdec hdet
    unfold declaredMimeOf at hdec
    rw [hdec, hdet]
    exact ⟨rfl, rfl⟩
  · intro hdec hdet
    unfold declaredMimeOf at hdec
    rw [hdec, hdet]
    exact ⟨rfl, rfl⟩

/-- Witness for C8: a data-URL declaring `image/png` whose magic bytes a
detector reads as `image/jpeg` yields `image/jpeg` and fires the mismatch
callback with both values. -/
theorem normalizeImageAttachment_mime_resolution_witness :
    normalizeImageAttachment (fun _ => some "image/jpeg")
        { type := JsVal.undef, data := JsVal.str "data:image/png;base64,AAAA",
          mimeType := JsVal.undef }
      = (some { data := "AAAA", mimeType := "image/jpeg" },
         some ("image/png", "image/jpeg")) ∧
    (({ data := "AAAA", mimeType := "image/jpeg" } : NormalizedImageAttachment).mimeType
        = "image/jpeg" ∧
      (some ("image/png", "image/jpeg") : Option (String × String)) =
        some ("image/png", "image/jpeg")) :=
  ⟨by decide,
   (normalizeImageAttachment_mime_resolution (fun _ => some "image/jpeg")
       { type := JsVal.undef, data := JsVal.str "data:image/png;base64,AAAA",
         mimeType := JsVal.undef }
       { data := "AAAA", mimeType := "image/jpeg" } (some ("image/png", "image/jpeg"))
       "data:image/png;base64,AAAA" rfl (by decide)).2.1
     "image/png" "image/jpeg" (by decide) rfl (by decide)⟩

theorem getEntry_of_entries (q' q : GroupQueue) (k0 : String) (e : QueueEntry) (k : String)
    (h : q'.entries = (k0, e) :: q.entries) :
    getEntry q' k = if (k0 == k) = true then e else getEntry q k := by
  unfold getEntry
  rw [h]
  rw [show assocLookup ((k0, e) :: q.entries) k
      = if (k0 == k) = true then some e else assocLookup q.entries k from rfl]
  cases hk : (k0 == k) with
  | true => simp [hk]
  | false => simp [hk]

theorem noLiveHandle_filter_nil (q : GroupQueue) (k : String)
    (h : noLiveHandle q k = true) :
    q.liveHandles.filter (fun p => p.1 == k) = [] := by
  unfold noLiveHandle at h
  rw [List.all_eq_true] at h
  rw [List.filter_eq_nil_iff]
  intro a ha hcontra
  have hb := h a ha
  simp only [bne_iff_ne, ne_eq] at hb
  exact hb (by simpa using hcontra)

theorem qstep_countLive_le (l : QLabel) (q q' : GroupQueue) (h : qstep l q = some q')
    (hq : ∀ k, countLive q k ≤ 1) (k : String) : countLive q' k ≤ 1 := by
  cases l
  case dispatch k0 =>
    simp only [qstep] at h
    split at h
    case isTrue hg =>
      have hq' := Option.some.inj h
      subst hq'
      rw [Bool.and_eq_true] at hg
      show (((k0, q.nextHandle) :: q.liveHandles).filter (fun p => p.1 == k)).length ≤ 1
      cases hk : (k0 == k) with
      | true =>
        have hk' : k0 = k := by simpa using hk
        subst hk'
        rw [List.filter_cons_of_pos (by simp), noLiveHandle_filter_nil q k0 hg.2]
        simp
      | false =>
        rw [List.filter_cons_of_neg (by simp [hk])]
        exact hq k
    case isFalse => simp at h
  all_goals
    simp only [qstep] at h
    repeat' split at h
    all_goals try (exfalso; simp at h; done)
    all_goals (have hq' := Option.some.inj h; subst hq')
    all_goals
      first
        | exact hq k
        | exact le_trans
            (List.Sublist.length_le (List.Sublist.filter _ (List.erase_sublist _ _))) (hq k)

theorem qstep_into_running (l : QLabel) (q q' : GroupQueue) (k : String)
    (h : qstep l q = some q') (h1 : (getEntry q k).state ≠ QState.running)
    (h2 : (getEntry q' k).state = QState.running) :
    noLiveHandle q k = true := by
  cases l
  case dispatch k0 =>
    simp only [qstep] at h
    split at h
    case isTrue hg =>
      have hq' := Option.some.inj h
      subst hq'
      rw [Bool.and_eq_true] at hg
      cases hk : (k0 == k) with
      | true =>
        have hk' : k0 = k := by simpa using hk
        subst hk'
        exact hg.2
      | false =>
        rw [getEntry_of_entries _ q k0 _ k rfl, hk] at h2
        simp only [Bool.false_eq_true, if_false] at h2
        exact absurd h2 h1
    case isFalse => simp at h
  all_goals
    simp only [qstep] at h
    repeat' split at h
    all_goals try (exfalso; simp at h; done)
    all_goals (have hq' := Option.some.inj h; subst hq')
    all_goals
      first
        | exact absurd h2 h1
        | (rw [getEntry_of_entries _ q _ _ k rfl] at h2
           repeat' split at h2
           all_goals simp_all)

theorem qrun_inv (ls : List QLabel) (q q' : GroupQueue) (h : qrun ls q = some q')
    (hq : ∀ k, countLive q k ≤ 1) : ∀ k, countLive q' k ≤ 1 := by
  induction ls generalizing q with
  | nil =>
    unfold qrun at h
    have := Option.some.inj h
    subst this
    exact hq
  | cons l ls ih =>
    unfold qrun at h
    cases hs : qstep l q with
    | none =>
      rw [hs] at h
      simp at h
    | some qm =>
      rw [hs] at h
      exact ih qm h (fun k => qstep_countLive_le l q qm hs hq k)

/-- C3 (spec-modelled): in every reachable state of the Group Execution
Queue state machine, at most one live sandbox handle exists per GroupKey,
and the only transition into RUNNING (`dispatch`) can fire only when no
handle is owned for that key. -/
theorem groupQueue_single_handle_invariant (q : GroupQueue) (hreach : QReachable q) :
    (∀ k, countLive q k ≤ 1) ∧
    (∀ l q' k, qstep l q = some q' → (getEntry q k).state ≠ QState.running →
       (getEntry q' k).state = QState.running → noLiveHandle q k = true) := by
  obtain ⟨ls, hls⟩ := hreach
  refine ⟨qrun_inv ls initQueue q hls (fun k => by simp [countLive, initQueue]), ?_⟩
  intro l q' k h h1 h2
  exact qstep_into_running l q q' k h h1 h2

/-- Witness for C3: the state reached by `enqueue g; dispatch g` is
reachable and holds a single live handle for `g`. -/
theorem groupQueue_single_handle_invariant_witness :
    QReachable qDemo ∧ countLive qDemo "g" ≤ 1 :=
  ⟨⟨[QLabel.enqueue "g", QLabel.dispatch "g"], by decide⟩,
   (groupQueue_single_handle_invariant qDemo
      ⟨[QLabel.enqueue "g", QLabel.dispatch "g"], by decide⟩).1 "g"⟩
